import Mathlib

/-!
Verification of the hexagonal-chunk streaming engine (nas-wasm).

This file gives a shallow embedding of the hex-coordinate algebra, the chunk
grid pipeline, the spatial index, the generation queue's `enqueue`, the
layout-commit pass, the floating-origin rebase and the constraint parser,
translated from `src/routes/babylon-chunks/hexUtils.ts` (`HEX_UTILS`),
`chunkManagement.ts`, `chunkGenerationQueue.ts` and the player / parser module,
and proves or refutes the specified properties about them.

Modelling conventions:
* JS `number` used as an integer hex coordinate is modelled by `Int`.
* JS `Map` keyed by the string `"q,r"` is modelled as a function
  `HexCoord → Option _`; integer pairs are in bijection with their key strings,
  so nothing is lost.
* JS float arithmetic (`hexToWorld` / `worldToHex` / the floating origin) is
  modelled over `ℝ`; `Math.round` is Mathlib's `round` (round half towards +∞,
  which agrees with JS `Math.round`).
* A JS `number` that may be `NaN` (the parser's `parseFloat` result) is
  modelled as `Option ℚ`, `none` standing for `NaN`.
-/

set_option maxHeartbeats 1600000
set_option linter.unusedTactic false

namespace NasWasm


/-- Axial hex coordinate, `interface HexCoord` of hexUtils. -/
structure HexCoord where
  q : Int
  r : Int
deriving DecidableEq, Repr

/-- Cube hex coordinate, `interface CubeCoord` of hexUtils. -/
structure CubeCoord where
  q : Int
  r : Int
  s : Int
deriving DecidableEq, Repr

/-- The six cube unit directions, `CUBE_DIRECTIONS` of hexUtils. -/
def CUBE_DIRECTIONS : List CubeCoord :=
  [⟨1, 0, -1⟩, ⟨1, -1, 0⟩, ⟨0, -1, 1⟩, ⟨-1, 0, 1⟩, ⟨-1, 1, 0⟩, ⟨0, 1, -1⟩]

/-- Axial hex distance, `HEX_UTILS.distance`. -/
def distance (q1 r1 q2 r2 : Int) : Int :=
  (|q1 - q2| + |q1 + r1 - q2 - r2| + |r1 - r2|) / 2

/-- `HEX_UTILS.axialToCube`. -/
def axialToCube (q r : Int) : CubeCoord := ⟨q, r, -q - r⟩

/-- `HEX_UTILS.cubeToAxial`. -/
def cubeToAxial (c : CubeCoord) : HexCoord := ⟨c.q, c.r⟩

/-- `HEX_UTILS.cubeDistance`. -/
def cubeDistance (a b : CubeCoord) : Int :=
  max (max |a.q - b.q| |a.r - b.r|) |a.s - b.s|

/-- `HEX_UTILS.cube_add`. -/
def cube_add (a b : CubeCoord) : CubeCoord := ⟨a.q + b.q, a.r + b.r, a.s + b.s⟩

/-- `HEX_UTILS.cube_scale`. -/
def cube_scale (h : CubeCoord) (factor : Int) : CubeCoord :=
  ⟨h.q * factor, h.r * factor, h.s * factor⟩

/-- `HEX_UTILS.cubeNeighbor`: step one hex in direction `direction % 6`. -/
def cubeNeighbor (cube : CubeCoord) (direction : Nat) : CubeCoord :=
  cube_add cube (CUBE_DIRECTIONS.getD (direction % 6) ⟨0, 0, 0⟩)

/-- Inner loop of `HEX_UTILS.cubeRing`: starting at `cur`, push the current hex
and step in direction `i`, `steps` times; returns the pushed list and the final
position. -/
def walkSide (i : Nat) : Nat → CubeCoord → List CubeCoord × CubeCoord
  | 0, cur => ([], cur)
  | n + 1, cur =>
    let rest := walkSide i n (cubeNeighbor cur i)
    (cur :: rest.1, rest.2)

/-- `HEX_UTILS.cubeRing`: the ring of hexes at distance `radius` around
`center`, traced by walking the six sides (directions 0..5) starting from
`center + radius · CUBE_DIRECTIONS[4]`. -/
def cubeRing (center : CubeCoord) (radius : Nat) : List CubeCoord :=
  if radius = 0 then [center]
  else
    let start := cube_add center (cube_scale (CUBE_DIRECTIONS.getD 4 ⟨0, 0, 0⟩) radius)
    ((List.range 6).foldl
      (fun (st : List CubeCoord × CubeCoord) i =>
        let w := walkSide i radius st.2
        (st.1 ++ w.1, w.2))
      ([], start)).1

/-- Insertion-ordered deduplication, modelling the JS `Set` that
`generateHexGrid` accumulates ring hexes into (string keys `"q,r,s"` are in
bijection with the cube coordinates). -/
def insertionDedup (l : List CubeCoord) : List CubeCoord :=
  l.foldl (fun acc x => if x ∈ acc then acc else acc ++ [x]) []

/-- `HEX_UTILS.generateHexGrid`: all hexes in rings `0..maxLayer` around the
center, deduplicated in insertion order, kept only if `q + r + s = 0`, and
converted back to axial coordinates. -/
def generateHexGrid (maxLayer : Nat) (centerQ centerR : Int) : List HexCoord :=
  let centerCube := axialToCube centerQ centerR
  let collected :=
    (List.range (maxLayer + 1)).foldl
      (fun acc layer => acc ++ cubeRing centerCube layer) []
  ((insertionDedup collected).filter (fun c => c.q + c.r + c.s = 0)).map cubeToAxial

/-! ### Explicit description of the ring walk -/

/-- Closed form of the hex visited at step `j` of side `i` of the ring of
radius `k` around `c` (relative coordinates derived from the walk's start
`c + k·d₄` and the direction list). -/
def ringPoint (c : CubeCoord) (k : Int) (i : Nat) (j : Int) : CubeCoord :=
  match i with
  | 0 => ⟨c.q - k + j, c.r + k, c.s - j⟩
  | 1 => ⟨c.q + j, c.r + k - j, c.s - k⟩
  | 2 => ⟨c.q + k, c.r - j, c.s - k + j⟩
  | 3 => ⟨c.q + k - j, c.r - k, c.s + j⟩
  | 4 => ⟨c.q - j, c.r - k + j, c.s + k⟩
  | _ => ⟨c.q - k, c.r + j, c.s + k - j⟩

/-! ### Ring geometry: distance, distinctness, size -/

/-! ### The collected multi-ring grid -/

/-- The concatenation of rings `0..maxLayer`, before deduplication (the order
in which `generateHexGrid` inserts hexes into its set). -/
def collectedRings (cc : CubeCoord) (maxLayer : Nat) : List CubeCoord :=
  (List.range (maxLayer + 1)).foldl (fun acc layer => acc ++ cubeRing cc layer) []

/-! ### Facts about `generateHexGrid` -/

/-! ### Tiles and the chunk grid phase -/

/-- Tile kinds, the `TileType` tagged union of the source. -/
inductive TileType
  | grass
  | building
  | road
  | forest
  | water
deriving DecidableEq, Repr

/-- Tile entry of a chunk grid, `interface ChunkTile` (the opaque renderer
handle `meshInstance` is owned by the renderer and carries no core state, so it
is omitted). -/
structure ChunkTile where
  hex : HexCoord
  tileType : Option TileType
  enabled : Bool
deriving DecidableEq, Repr

/-- Result of the grid phase, `ChunkGenerationQueue.stepGenerateGrid` run to
completion (batching only splits the same filter-and-push loop across frames):
every enumerated hex within `rings` of the chunk center becomes a tile with
`tileType = null`, `enabled = true`.  `Chunk.initializeAsync` performs the
identical validation. -/
def stepGenerateGridTiles (rings : Nat) (chunkHex : HexCoord) : List ChunkTile :=
  ((generateHexGrid rings chunkHex.q chunkHex.r).filter
      (fun hex => distance chunkHex.q chunkHex.r hex.q hex.r ≤ (rings : Int))).map
    (fun hex => ⟨hex, none, true⟩)

/-! ### Chunk packing neighbors -/

/-- Clockwise 60 degree axial rotation used by `calculateChunkNeighbors`:
`(q, r) -> (q + r, -q)`. -/
def rotateCW (p : HexCoord) : HexCoord := ⟨p.q + p.r, -p.q⟩

/-- Base offset vector of `Chunk.calculateChunkNeighbors`: `(1, 0)` for
`rings = 0`, else `(rings, rings + 1)`. -/
def neighborBase (rings : Nat) : HexCoord :=
  if rings = 0 then ⟨1, 0⟩ else ⟨(rings : Int), (rings : Int) + 1⟩

/-- `Chunk.calculateChunkNeighbors`: base offset `(1, 0)` for `rings = 0`, else
`(rings, rings + 1)`; pre-rotated four times, then six push-and-rotate steps. -/
def calculateChunkNeighbors (center : HexCoord) (rings : Nat) : List HexCoord :=
  let base : HexCoord := neighborBase rings
  let start := rotateCW (rotateCW (rotateCW (rotateCW base)))
  ((List.range 6).foldl
    (fun (st : List HexCoord × HexCoord) _ =>
      (st.1 ++ [⟨center.q + st.2.q, center.r + st.2.r⟩], rotateCW st.2))
    ([], start)).1

/-! ### Chunks, the world map and the spatial index -/

/-- Chunk state (`class Chunk` of chunkManagement.ts).  The cached
`positionCartesian` is derived float render data used by no claimed property
and the renderer-owned mesh handles are opaque, so both are omitted. -/
structure ChunkModel where
  positionHex : HexCoord
  grid : List ChunkTile
  neighbors : List HexCoord
  enabled : Bool
  tilesGenerated : Bool
  initialized : Bool
deriving DecidableEq, Repr

/-- The `Chunk` constructor: empty grid and neighbors, enabled, not generated,
not initialized (`hexSize` only feeds the omitted cartesian cache). -/
def chunkNew (positionHex : HexCoord) : ChunkModel :=
  ⟨positionHex, [], [], true, false, false⟩

/-- `class WorldMap`: chunks and the spatial index, both JS `Map`s keyed by the
string `"q,r"`, modelled as functions from the (bijective) hex coordinate. -/
structure WorldMapModel where
  chunks : HexCoord → Option ChunkModel
  spatialIndex : HexCoord → Option HexCoord

/-- `WorldMap.addSpatialIndexEntry`: an unconditional `Map.set`. -/
def addSpatialIndexEntry (wm : WorldMapModel) (tileKey : HexCoord)
    (chunkHex : HexCoord) : WorldMapModel :=
  { wm with
    spatialIndex := fun k => if k = tileKey then some chunkHex else wm.spatialIndex k }

/-- `ChunkGenerationQueue.stepUpdateSpatialIndex` run to completion: publish
every tile of the chunk grid into the index (the batch size of 200 only splits
this same loop across frames and does not change the final map). -/
def stepUpdateSpatialIndexAll (wm : WorldMapModel) (grid : List ChunkTile)
    (chunkHex : HexCoord) : WorldMapModel :=
  grid.foldl (fun m tile => addSpatialIndexEntry m tile.hex chunkHex) wm

/-- `WorldMap.addChunkPlaceholder`: only add if absent. -/
def addChunkPlaceholder (wm : WorldMapModel) (positionHex : HexCoord)
    (chunk : ChunkModel) : WorldMapModel :=
  if (wm.chunks positionHex).isSome then wm
  else { wm with chunks := fun k => if k = positionHex then some chunk else wm.chunks k }

/-- `WorldMap.getChunkForTileFast`: O(1) lookup through the spatial index with
boundary verification.  Returns the lookup result together with the world map,
whose index loses the entry only in the missing-chunk branch. -/
def getChunkForTileFast (wm : WorldMapModel) (tileHex : HexCoord) (rings : Nat) :
    Option HexCoord × WorldMapModel :=
  match wm.spatialIndex tileHex with
  | none => (none, wm)
  | some chunkPos =>
    match wm.chunks chunkPos with
    | none =>
      (none,
       { wm with spatialIndex := fun k => if k = tileHex then none else wm.spatialIndex k })
    | some _ =>
      if distance tileHex.q tileHex.r chunkPos.q chunkPos.r ≤ (rings : Int) then
        (some chunkPos, wm)
      else
        (none, wm)

/-! ### Fast spatial lookup (C5) -/

/-- Concrete stale state: the index maps tile `(5,0)` to chunk center `(0,0)`,
the chunk exists, but the tile is far outside the radius-1 boundary. -/
def staleWorldMap : WorldMapModel :=
  { chunks := fun c => if c = ⟨0, 0⟩ then some (chunkNew ⟨0, 0⟩) else none,
    spatialIndex := fun k => if k = ⟨5, 0⟩ then some ⟨0, 0⟩ else none }

/-! ### The generation queue (C6) -/

/-- Task status, `type ChunkGenerationStatus`. -/
inductive TaskStatus
  | pending
  | generating
  | completed
  | failed
deriving DecidableEq, Repr

/-- `interface ChunkGenerationTask`.  The attached promise is modelled by an
identifier (`promiseId`); the step-cursor fields are `null` until processing
starts and play no role in the enqueue contract. -/
structure TaskModel where
  chunkHex : HexCoord
  rings : Nat
  priority : Int
  status : TaskStatus
  promiseId : Nat
deriving DecidableEq, Repr

/-- `class ChunkGenerationQueue` task table; `nextPromiseId` names the fresh
promise the next created task would hand out. -/
structure QueueModel where
  tasks : HexCoord → Option TaskModel
  nextPromiseId : Nat

/-- What `enqueue` returns: the existing task's promise, an already-resolved
promise carrying the initialized chunk, or a fresh task's promise. -/
inductive EnqueueResult
  | existingTaskPromise (id : Nat)
  | resolvedChunk (c : ChunkModel)
  | newTaskPromise (id : Nat)
deriving DecidableEq, Repr

/-- Task-creation tail of `ChunkGenerationQueue.enqueue`: register a fresh
pending task and return its promise. -/
def enqueueNewTask (q : QueueModel) (wm : WorldMapModel) (chunkHex : HexCoord)
    (rings : Nat) (priority : Int) :
    EnqueueResult × QueueModel × WorldMapModel :=
  (.newTaskPromise q.nextPromiseId,
   { tasks := fun k =>
       if k = chunkHex then some ⟨chunkHex, rings, priority, .pending, q.nextPromiseId⟩
       else q.tasks k,
     nextPromiseId := q.nextPromiseId + 1 },
   wm)

/-- `ChunkGenerationQueue.enqueue`.  The `hexSize` argument only feeds the
placeholder chunk's omitted cartesian cache.  The source's inner re-check of
`this.tasks.get(key)` inside the uninitialized-chunk branch is kept even though
it can never see a task the first lookup missed (single-threaded function). -/
def enqueue (q : QueueModel) (wm : WorldMapModel) (chunkHex : HexCoord)
    (rings : Nat) (priority : Int) :
    EnqueueResult × QueueModel × WorldMapModel :=
  match q.tasks chunkHex with
  | some existing =>
    (.existingTaskPromise existing.promiseId,
     { q with
        tasks := fun k =>
          if k = chunkHex then
            some { existing with
                    priority :=
                      if priority > existing.priority then priority else existing.priority }
          else q.tasks k },
     wm)
  | none =>
    match wm.chunks chunkHex with
    | some existingChunk =>
      if existingChunk.initialized then
        (.resolvedChunk existingChunk, q, wm)
      else
        match q.tasks chunkHex with
        | some existingTask => (.existingTaskPromise existingTask.promiseId, q, wm)
        | none => enqueueNewTask q wm chunkHex rings priority
    | none =>
      enqueueNewTask q (addChunkPlaceholder wm chunkHex (chunkNew chunkHex))
        chunkHex rings priority

/-! ### The layout-commit pass (C7) -/

/-- `tileTypeFromNumber` of the wasm bridge: numbers 0..4 map to kinds, any
other generator output maps to `null`. -/
def tileTypeFromNumber (tileNum : Int) : Option TileType :=
  if tileNum = 0 then some .grass
  else if tileNum = 1 then some .building
  else if tileNum = 2 then some .road
  else if tileNum = 3 then some .forest
  else if tileNum = 4 then some .water
  else none

/-- `Chunk.setTileType`: update the first grid tile carrying the given hex
(`grid.find` in the source); a miss is a silent no-op. -/
def setTileTypeGrid (grid : List ChunkTile) (hex : HexCoord)
    (tileType : Option TileType) : List ChunkTile :=
  match grid with
  | [] => []
  | t :: ts =>
    if t.hex = hex then { t with tileType := tileType } :: ts
    else t :: setTileTypeGrid ts hex tileType

/-- `Chunk.setTileType` lifted to the chunk. -/
def chunkSetTileType (c : ChunkModel) (hex : HexCoord)
    (ty : Option TileType) : ChunkModel :=
  { c with grid := setTileTypeGrid c.grid hex ty }

/-- One iteration of the cache loop in `CanvasManager.renderGridAsync`: query
the generator (`wasmModule.get_tile_at`, the oracle `getTileAt`) for the hex
and cache the kind only when the number is valid. -/
def commitStep (getTileAt : HexCoord → Int) (acc : ChunkModel) (hex : HexCoord) :
    ChunkModel :=
  match tileTypeFromNumber (getTileAt hex) with
  | some ty => chunkSetTileType acc hex (some ty)
  | none => acc

/-- The layout-commit pass of `CanvasManager.renderGridAsync` for one chunk:
cache the generator's kind for every grid tile, then mark the chunk generated
(`setTilesGenerated(true)` is unconditional in the source). -/
def commitChunkTiles (getTileAt : HexCoord → Int) (c : ChunkModel) : ChunkModel :=
  let c2 := (c.grid.map (fun t => t.hex)).foldl (commitStep getTileAt) c
  { c2 with tilesGenerated := true }

/-- Concrete single-tile chunk used in the C7 counterexample and witness. -/
def oneTileChunk : ChunkModel :=
  { chunkNew ⟨0, 0⟩ with grid := [⟨⟨0, 0⟩, none, true⟩], initialized := true }

/-! ### Real-valued hex geometry (C8, C2)

The source computes these in JS floats; the model is over `ℝ`, with JS
`Math.round` modelled by Mathlib's `round` (both round half towards +∞). -/

/-- `HEX_UTILS.hexToWorld`: pointy-top layout, returns `(x, z)`. -/
noncomputable def hexToWorld (q r hexSize : ℝ) : ℝ × ℝ :=
  (hexSize * (Real.sqrt 3 * q + Real.sqrt 3 / 2 * r), hexSize * (3 / 2 * r))

/-- `HEX_UTILS.worldToHex`: fractional axial coordinates, cube rounding, and
the largest-error reset that restores `q + r + s = 0`. -/
noncomputable def worldToHex (x z hexSize : ℝ) : HexCoord :=
  let fracQ := (Real.sqrt 3 / 3 * x - 1 / 3 * z) / hexSize
  let fracR := (2 / 3 * z) / hexSize
  let fracS := -fracQ - fracR
  let q := round fracQ
  let r := round fracR
  let s := round fracS
  let qDiff := |(q : ℝ) - fracQ|
  let rDiff := |(r : ℝ) - fracR|
  let sDiff := |(s : ℝ) - fracS|
  if qDiff > rDiff ∧ qDiff > sDiff then ⟨-r - s, r⟩
  else if rDiff > sDiff then ⟨q, -q - s⟩
  else ⟨q, r⟩

/-! ### Floating origin (C2) -/

/-- `TILE_CONFIG.hexSize = modelDepth / 3 = 20 / 3`, the hex size used by
`updateFloatingOrigin` and by the callers of `getCurrentTileHex`. -/
noncomputable def TILE_CONFIG_hexSize : ℝ := 20 / 3

/-- BabylonJS `Vector3`. -/
structure Vec3 where
  x : ℝ
  y : ℝ
  z : ℝ

/-- `Vector3.Distance`. -/
noncomputable def vec3Distance (a b : Vec3) : ℝ :=
  Real.sqrt ((a.x - b.x) ^ 2 + (a.y - b.y) ^ 2 + (a.z - b.z) ^ 2)

/-- Distance threshold for floating-origin updates (source default 1000). -/
noncomputable def floatingOriginThreshold : ℝ := 1000

/-- Floating-origin state of `CanvasManager`: the avatar mesh's (local scene)
position, the current floating origin, and the accumulated world hex offset. -/
structure FloatingOriginState where
  avatarPosition : Vec3
  currentFloatingOrigin : Vec3
  worldHexOffset : HexCoord

/-- `CanvasManager.updateFloatingOrigin`: when the avatar is farther than the
threshold from the current origin, convert `(offset.x, offset.z)` to a hex
delta with `worldToHex` at `TILE_CONFIG.hexSize`, accumulate it into
`worldHexOffset`, shift every scene mesh (including the avatar) by `-offset`,
and set the origin to the (pre-shift) avatar position. -/
noncomputable def updateFloatingOrigin (st : FloatingOriginState) : FloatingOriginState :=
  if vec3Distance st.avatarPosition st.currentFloatingOrigin >
      floatingOriginThreshold then
    let offset : Vec3 :=
      ⟨st.avatarPosition.x - st.currentFloatingOrigin.x,
       st.avatarPosition.y - st.currentFloatingOrigin.y,
       st.avatarPosition.z - st.currentFloatingOrigin.z⟩
    let hexOffset := worldToHex offset.x offset.z TILE_CONFIG_hexSize
    { avatarPosition :=
        ⟨st.avatarPosition.x - offset.x, st.avatarPosition.y - offset.y,
         st.avatarPosition.z - offset.z⟩,
      currentFloatingOrigin := st.avatarPosition,
      worldHexOffset :=
        ⟨st.worldHexOffset.q + hexOffset.q, st.worldHexOffset.r + hexOffset.r⟩ }
  else st

/-- `Player.getCurrentTileHex` with the accumulated offset supplied (as every
caller does): the avatar's true world hex,
`worldToHex(-local_x, local_z, hexSize) + worldHexOffset`. -/
noncomputable def getCurrentTileHex (st : FloatingOriginState) : HexCoord :=
  let localHex :=
    worldToHex (-st.avatarPosition.x) st.avatarPosition.z TILE_CONFIG_hexSize
  ⟨localHex.q + st.worldHexOffset.q, localHex.r + st.worldHexOffset.r⟩

/-- The concrete pre-rebase state of spec scenario 5: origin and offset zero,
avatar at local `(1500, 0, 0)`. -/
noncomputable def rebaseState : FloatingOriginState := ⟨⟨1500, 0, 0⟩, ⟨0, 0, 0⟩, ⟨0, 0⟩⟩

/-! ### The constraint parser (C9)

`parseLayoutConstraints` first tries structured extraction from a JSON-shaped
fragment; the built-in `JSON.parse` is modelled by an oracle
`jsonParse : List Char → Option JsValue` (`none` = the call threw), while the
brace match, the `Object.entries` walk, the type checks, the guard, the regex
fallbacks and `parseFloat` are modelled from the source.  A JS number that may
be `NaN` is `Option ℚ` with `none` = `NaN` (JSON numbers are never `NaN`). -/

/-- A JavaScript value as returned by `JSON.parse`. -/
inductive JsValue
  | str (s : List Char)
  | num (x : ℚ)
  | bool (b : Bool)
  | null
  | arr (xs : List JsValue)
  | obj (fields : List (List Char × JsValue))

/-- The opening brace character (codepoint 123). -/
def openBraceChar : Char := Char.ofNat 123

/-- The closing brace character (codepoint 125). -/
def closeBraceChar : Char := Char.ofNat 125

/-- JS regex `\s` (the whitespace class used inside `["\s:]`). -/
def isJsWhitespace (c : Char) : Bool :=
  c.toNat = 9 || c.toNat = 10 || c.toNat = 11 || c.toNat = 12 || c.toNat = 13 ||
  c.toNat = 32 || c.toNat = 160 || c.toNat = 5760 ||
  (8192 ≤ c.toNat && c.toNat ≤ 8202) || c.toNat = 8232 || c.toNat = 8233 ||
  c.toNat = 8239 || c.toNat = 8287 || c.toNat = 12288 || c.toNat = 65279

/-- The character class `["\s:]` of the field regexes. -/
def isClassChar (c : Char) : Bool := c = '"' || isJsWhitespace c || c = ':'

/-- ASCII lowercasing, what the `/i` flag does on the ASCII patterns used. -/
def toLowerAscii (c : Char) : Char :=
  if 65 ≤ c.toNat ∧ c.toNat ≤ 90 then Char.ofNat (c.toNat + 32) else c

/-- ASCII digit test (`\d`). -/
def isDigitChar (c : Char) : Bool := 48 ≤ c.toNat && c.toNat ≤ 57

/-- Match `/lit["\s:]+(alt₁|…|altₙ)/i` anchored at the start of `cs`
(`lit`, `altᵢ` given lowercase); returns the captured original-case text.
Greedy matching of the class run is exact here because the class characters
are disjoint from the letters the alternatives start with. -/
def matchKeywordAt (lit : List Char) (alts : List (List Char)) (cs : List Char) :
    Option (List Char) :=
  if (cs.take lit.length).map toLowerAscii = lit then
    let rest := cs.drop lit.length
    let run := rest.takeWhile isClassChar
    if run.isEmpty then none
    else
      let after := rest.drop run.length
      match alts.find? (fun alt => (after.take alt.length).map toLowerAscii = alt) with
      | some alt => some (after.take alt.length)
      | none => none
  else none

/-- Leftmost (first-position) match of the keyword pattern: `String.match`
with a non-global regex. -/
def scanKeyword (lit : List Char) (alts : List (List Char)) :
    List Char → Option (List Char)
  | [] => none
  | c :: rest =>
    match matchKeywordAt lit alts (c :: rest) with
    | some cap => some cap
    | none => scanKeyword lit alts rest

/-- Match `/lit["\s:]+([\d.]+)/i` anchored at the start of `cs`. -/
def matchNumberAt (lit : List Char) (cs : List Char) : Option (List Char) :=
  if (cs.take lit.length).map toLowerAscii = lit then
    let rest := cs.drop lit.length
    let run := rest.takeWhile isClassChar
    if run.isEmpty then none
    else
      let after := rest.drop run.length
      let cap := after.takeWhile (fun c => isDigitChar c || c = '.')
      if cap.isEmpty then none else some cap
  else none

/-- Leftmost match of the number pattern. -/
def scanNumber (lit : List Char) : List Char → Option (List Char)
  | [] => none
  | c :: rest =>
    match matchNumberAt lit (c :: rest) with
    | some cap => some cap
    | none => scanNumber lit rest

/-- `/buildingDensity["\s:]+(sparse|medium|dense)/i`. -/
def densityScan (cs : List Char) : Option (List Char) :=
  scanKeyword "buildingdensity".data ["sparse".data, "medium".data, "dense".data] cs

/-- `/clustering["\s:]+(clustered|distributed|random)/i`. -/
def clusteringScan (cs : List Char) : Option (List Char) :=
  scanKeyword "clustering".data
    ["clustered".data, "distributed".data, "random".data] cs

/-- `/grassRatio["\s:]+([\d.]+)/i`. -/
def grassRatioScan (cs : List Char) : Option (List Char) :=
  scanNumber "grassratio".data cs

/-- `/buildingSizeHint["\s:]+(small|medium|large)/i`. -/
def sizeScan (cs : List Char) : Option (List Char) :=
  scanKeyword "buildingsizehint".data ["small".data, "medium".data, "large".data] cs

/-- Decimal digits to a natural number. -/
def digitsToNat (ds : List Char) : Nat :=
  ds.foldl (fun acc c => 10 * acc + (c.toNat - 48)) 0

/-- JS `parseFloat` on the capture alphabet `[0-9.]` (no signs or exponents
can appear in a `[\d.]+` capture): the longest numeric prefix, or `NaN`
(`none`) when the text starts with no digit and no `.digit`. -/
def parseFloatModel (cs : List Char) : Option ℚ :=
  let intPart := cs.takeWhile isDigitChar
  let rest := cs.drop intPart.length
  match rest with
  | c :: rest2 =>
    if c = '.' then
      let fracPart := rest2.takeWhile isDigitChar
      if intPart.isEmpty && fracPart.isEmpty then none
      else some ((digitsToNat intPart : ℚ) +
        (digitsToNat fracPart : ℚ) / (10 : ℚ) ^ fracPart.length)
    else if intPart.isEmpty then none else some (digitsToNat intPart : ℚ)
  | [] => if intPart.isEmpty then none else some (digitsToNat intPart : ℚ)

/-- JS `Math.min(1, v)`: `NaN` absorbs. -/
def jsMin1 (v : Option ℚ) : Option ℚ :=
  match v with
  | none => none
  | some x => some (min 1 x)

/-- JS `Math.max(0, v)`: `NaN` absorbs. -/
def jsMax0 (v : Option ℚ) : Option ℚ :=
  match v with
  | none => none
  | some x => some (max 0 x)

/-- `buildingDensity` variants. -/
inductive BuildingDensity
  | sparse
  | medium
  | dense
deriving DecidableEq, Repr

/-- `clustering` variants. -/
inductive Clustering
  | clustered
  | distributed
  | random
deriving DecidableEq, Repr

/-- `buildingSizeHint` variants. -/
inductive BuildingSizeHint
  | small
  | medium
  | large
deriving DecidableEq, Repr

/-- `LayoutConstraints`; `grassRatio` is a JS number (`none` = `NaN`). -/
structure LayoutConstraintsModel where
  buildingDensity : BuildingDensity
  clustering : Clustering
  grassRatio : Option ℚ
  buildingSizeHint : BuildingSizeHint
deriving DecidableEq, Repr

/-- The source's `densityMatch && (=== checks) ? densityMatch[1] : 'medium'`. -/
def densityFromCapture (cap : List Char) : BuildingDensity :=
  if cap = "sparse".data then .sparse
  else if cap = "medium".data then .medium
  else if cap = "dense".data then .dense
  else .medium

/-- The source's clustering checks with default `'random'`. -/
def clusteringFromCapture (cap : List Char) : Clustering :=
  if cap = "clustered".data then .clustered
  else if cap = "distributed".data then .distributed
  else if cap = "random".data then .random
  else .random

/-- The source's size checks with default `'medium'`. -/
def sizeFromCapture (cap : List Char) : BuildingSizeHint :=
  if cap = "small".data then .small
  else if cap = "medium".data then .medium
  else if cap = "large".data then .large
  else .medium

/-- `output.match(/\x7b[\s\S]*\x7d/)`: from the first opening brace through
the last closing brace (the closing brace is necessarily strictly later since
the first character of the tail is the opening brace). -/
def braceMatch (cs : List Char) : Option (List Char) :=
  match cs.findIdx? (fun c => c = openBraceChar) with
  | none => none
  | some i =>
    let tail := cs.drop i
    match tail.reverse.findIdx? (fun c => c = closeBraceChar) with
    | none => none
    | some jrev => some (tail.take (tail.length - jrev))

/-- `Object.entries(parsed).find(([key]) => key === k)`. -/
def findField (fields : List (List Char × JsValue)) (key : List Char) :
    Option JsValue :=
  match fields.find? (fun kv => kv.1 = key) with
  | some kv => some kv.2
  | none => none

/-- Field validation of the structured path: all four fields present with the
right types, enumeration membership, and `0 ≤ grassRatio ≤ 1`. -/
def validateFields (density clustering : Option (List Char)) (grassRatio : Option ℚ)
    (size : Option (List Char)) : Option LayoutConstraintsModel :=
  match density, clustering, grassRatio, size with
  | some d, some cl, some g, some sz =>
    if (d = "sparse".data ∨ d = "medium".data ∨ d = "dense".data) ∧
        (cl = "clustered".data ∨ cl = "distributed".data ∨ cl = "random".data) ∧
        0 ≤ g ∧ g ≤ 1 ∧
        (sz = "small".data ∨ sz = "medium".data ∨ sz = "large".data) then
      some ⟨densityFromCapture d, clusteringFromCapture cl, some g,
        sizeFromCapture sz⟩
    else none
  | _, _, _, _ => none

/-- The structured (JSON) extraction attempt of `parseLayoutConstraints`:
brace match, `JSON.parse` (oracle, `none` = threw), object check, per-field
type checks and the validity guard; `none` means fall through to the regex
path. -/
def jsonExtract (jsonParse : List Char → Option JsValue) (output : List Char) :
    Option LayoutConstraintsModel :=
  match braceMatch output with
  | none => none
  | some frag =>
    match jsonParse frag with
    | some (JsValue.obj fields) =>
      validateFields
        (match findField fields "buildingDensity".data with
          | some (JsValue.str s) => some s
          | _ => none)
        (match findField fields "clustering".data with
          | some (JsValue.str s) => some s
          | _ => none)
        (match findField fields "grassRatio".data with
          | some (JsValue.num x) => some x
          | _ => none)
        (match findField fields "buildingSizeHint".data with
          | some (JsValue.str s) => some s
          | _ => none)
    | _ => none

/-- `parseLayoutConstraints`: structured extraction, then regex fallback with
per-field defaults (`medium`, `random`, `0.3`, `medium`) and the
`Math.max(0, Math.min(1, grassRatio))` clamp. -/
def parseLayoutConstraints (jsonParse : List Char → Option JsValue)
    (output : List Char) : LayoutConstraintsModel :=
  match jsonExtract jsonParse output with
  | some r => r
  | none =>
    let density := match densityScan output with
      | some cap => densityFromCapture cap
      | none => BuildingDensity.medium
    let clustering := match clusteringScan output with
      | some cap => clusteringFromCapture cap
      | none => Clustering.random
    let grassRatioRaw : Option ℚ := match grassRatioScan output with
      | some cap => parseFloatModel cap
      | none => some (3 / 10)
    let size := match sizeScan output with
      | some cap => sizeFromCapture cap
      | none => BuildingSizeHint.medium
    ⟨density, clustering, jsMax0 (jsMin1 grassRatioRaw), size⟩

theorem getD_dir0 : CUBE_DIRECTIONS.getD (0 % 6) ⟨0, 0, 0⟩ = ⟨1, 0, -1⟩ := rfl

theorem getD_dir1 : CUBE_DIRECTIONS.getD (1 % 6) ⟨0, 0, 0⟩ = ⟨1, -1, 0⟩ := rfl

theorem getD_dir2 : CUBE_DIRECTIONS.getD (2 % 6) ⟨0, 0, 0⟩ = ⟨0, -1, 1⟩ := rfl

theorem getD_dir3 : CUBE_DIRECTIONS.getD (3 % 6) ⟨0, 0, 0⟩ = ⟨-1, 0, 1⟩ := rfl

theorem getD_dir4 : CUBE_DIRECTIONS.getD (4 % 6) ⟨0, 0, 0⟩ = ⟨-1, 1, 0⟩ := rfl

theorem getD_dir5 : CUBE_DIRECTIONS.getD (5 % 6) ⟨0, 0, 0⟩ = ⟨0, 1, -1⟩ := rfl

theorem walkSide_fst (i : Nat) (n : Nat) (cur : CubeCoord) :
    (walkSide i n cur).1 =
      (List.range n).map
        (fun j : Nat =>
          cube_add cur (cube_scale (CUBE_DIRECTIONS.getD (i % 6) ⟨0, 0, 0⟩) (j : Int))) := by
  induction n generalizing cur with
  | zero => simp [walkSide]
  | succ m ih =>
    rw [List.range_succ_eq_map]
    simp only [walkSide, ih, List.map_cons, List.map_map]
    congr 1
    · simp [cube_add, cube_scale]
    · apply List.map_congr_left
      intro a _
      simp only [Function.comp, cubeNeighbor, cube_add, cube_scale, CubeCoord.mk.injEq]
      refine ⟨?_, ?_, ?_⟩ <;> push_cast <;> ring

theorem walkSide_snd (i : Nat) (n : Nat) (cur : CubeCoord) :
    (walkSide i n cur).2 =
      cube_add cur (cube_scale (CUBE_DIRECTIONS.getD (i % 6) ⟨0, 0, 0⟩) (n : Int)) := by
  induction n generalizing cur with
  | zero => simp [walkSide, cube_add, cube_scale]
  | succ m ih =>
    simp only [walkSide, ih, cubeNeighbor, cube_add, cube_scale, CubeCoord.mk.injEq]
    refine ⟨?_, ?_, ?_⟩ <;> push_cast <;> ring

/-- The ring walk visits exactly the `ringPoint`s: six sides of `k` steps. -/
theorem cubeRing_eq_explicit (c : CubeCoord) (k : Nat) (hk : k ≠ 0) :
    cubeRing c k =
      ((List.range k).map (fun j : Nat => ringPoint c k 0 j)) ++
      ((List.range k).map (fun j : Nat => ringPoint c k 1 j)) ++
      ((List.range k).map (fun j : Nat => ringPoint c k 2 j)) ++
      ((List.range k).map (fun j : Nat => ringPoint c k 3 j)) ++
      ((List.range k).map (fun j : Nat => ringPoint c k 4 j)) ++
      ((List.range k).map (fun j : Nat => ringPoint c k 5 j)) := by
  rw [cubeRing, if_neg hk]
  rw [show List.range 6 = [0, 1, 2, 3, 4, 5] from rfl]
  simp only [List.foldl_cons, List.foldl_nil]
  simp only [walkSide_snd, walkSide_fst, getD_dir0, getD_dir1, getD_dir2, getD_dir3,
    getD_dir4, getD_dir5]
  rw [show (CUBE_DIRECTIONS.getD 4 ⟨0, 0, 0⟩) = (⟨-1, 1, 0⟩ : CubeCoord) from rfl]
  simp only [List.nil_append, List.append_assoc]
  congr 1
  on_goal 2 => congr 1
  on_goal 3 => congr 1
  on_goal 4 => congr 1
  on_goal 5 => congr 1
  all_goals
    apply List.map_congr_left
    intro a _
    simp only [ringPoint, cube_add, cube_scale, CubeCoord.mk.injEq]
    refine ⟨?_, ?_, ?_⟩ <;> push_cast <;> ring

theorem ringPoint_dist (c : CubeCoord) (k : Int) (i : Nat) (j : Int)
    (hi : i < 6) (hj0 : 0 ≤ j) (hjk : j < k) :
    cubeDistance (ringPoint c k i j) c = k := by
  interval_cases i <;>
    (simp only [ringPoint, cubeDistance, Int.abs_eq_natAbs, max_def] ;
     split_ifs <;> omega)

theorem ringPoint_inj (c : CubeCoord) (k : Int) (i i2 : Nat) (j j2 : Int)
    (hi : i < 6) (hi2 : i2 < 6) (hj0 : 0 ≤ j) (hjk : j < k)
    (hj20 : 0 ≤ j2) (hj2k : j2 < k)
    (h : ringPoint c k i j = ringPoint c k i2 j2) : i = i2 ∧ j = j2 := by
  interval_cases i <;> interval_cases i2 <;>
    (simp only [ringPoint, CubeCoord.mk.injEq] at h ; omega)

theorem cubeRing_zero (c : CubeCoord) : cubeRing c 0 = [c] := rfl

theorem mem_cubeRing_iff (c : CubeCoord) (k : Nat) (hk : k ≠ 0) (p : CubeCoord) :
    p ∈ cubeRing c k ↔ ∃ i < 6, ∃ j : Nat, j < k ∧ p = ringPoint c k i j := by
  rw [cubeRing_eq_explicit c k hk]
  simp only [List.mem_append, List.mem_map, List.mem_range]
  constructor
  · rintro (((((⟨j, hj, rfl⟩ | ⟨j, hj, rfl⟩) | ⟨j, hj, rfl⟩) | ⟨j, hj, rfl⟩) |
      ⟨j, hj, rfl⟩) | ⟨j, hj, rfl⟩)
    · exact ⟨0, by norm_num, j, hj, rfl⟩
    · exact ⟨1, by norm_num, j, hj, rfl⟩
    · exact ⟨2, by norm_num, j, hj, rfl⟩
    · exact ⟨3, by norm_num, j, hj, rfl⟩
    · exact ⟨4, by norm_num, j, hj, rfl⟩
    · exact ⟨5, by norm_num, j, hj, rfl⟩
  · rintro ⟨i, hi, j, hj, rfl⟩
    interval_cases i
    · exact Or.inl (Or.inl (Or.inl (Or.inl (Or.inl ⟨j, hj, rfl⟩))))
    · exact Or.inl (Or.inl (Or.inl (Or.inl (Or.inr ⟨j, hj, rfl⟩))))
    · exact Or.inl (Or.inl (Or.inl (Or.inr ⟨j, hj, rfl⟩)))
    · exact Or.inl (Or.inl (Or.inr ⟨j, hj, rfl⟩))
    · exact Or.inl (Or.inr ⟨j, hj, rfl⟩)
    · exact Or.inr ⟨j, hj, rfl⟩

theorem dist_of_mem_cubeRing (c : CubeCoord) (k : Nat) (p : CubeCoord)
    (hp : p ∈ cubeRing c k) : cubeDistance p c = k := by
  rcases Nat.eq_zero_or_pos k with hk | hk
  · subst hk
    rw [cubeRing_zero] at hp
    simp only [List.mem_singleton] at hp
    subst hp
    simp [cubeDistance]
  · rw [mem_cubeRing_iff c k (Nat.pos_iff_ne_zero.mp hk) p] at hp
    obtain ⟨i, hi, j, hj, rfl⟩ := hp
    exact ringPoint_dist c k i j hi (Int.ofNat_nonneg j) (by exact_mod_cast hj)

theorem cubeRing_nodup (c : CubeCoord) (k : Nat) : (cubeRing c k).Nodup := by
  rcases Nat.eq_zero_or_pos k with hk | hk
  · subst hk
    simp [cubeRing_zero]
  · have hk2 : k ≠ 0 := Nat.pos_iff_ne_zero.mp hk
    have side : ∀ i : Nat, i < 6 →
        ((List.range k).map (fun j : Nat => ringPoint c k i j)).Nodup := by
      intro i hi
      refine List.Nodup.map_on ?_ (List.nodup_range k)
      intro a ha b hb hab
      have := ringPoint_inj c k i i a b hi hi (Int.ofNat_nonneg a)
        (by exact_mod_cast List.mem_range.mp ha) (Int.ofNat_nonneg b)
        (by exact_mod_cast List.mem_range.mp hb) hab
      exact_mod_cast this.2
    have disj : ∀ i i2 : Nat, i < 6 → i2 < 6 → i ≠ i2 →
        List.Disjoint ((List.range k).map (fun j : Nat => ringPoint c k i j))
          ((List.range k).map (fun j : Nat => ringPoint c k i2 j)) := by
      intro i i2 hi hi2 hne p hp1 hp2
      simp only [List.mem_map, List.mem_range] at hp1 hp2
      obtain ⟨a, ha, rfl⟩ := hp1
      obtain ⟨b, hb, hab⟩ := hp2
      have := ringPoint_inj c k i2 i b a hi2 hi (Int.ofNat_nonneg b)
        (by exact_mod_cast hb) (Int.ofNat_nonneg a) (by exact_mod_cast ha) hab
      exact hne this.1.symm
    rw [cubeRing_eq_explicit c k hk2]
    simp only [List.append_assoc]
    refine List.Nodup.append (side 0 (by norm_num)) ?_ ?_
    · refine List.Nodup.append (side 1 (by norm_num)) ?_ ?_
      · refine List.Nodup.append (side 2 (by norm_num)) ?_ ?_
        · refine List.Nodup.append (side 3 (by norm_num)) ?_ ?_
          · exact List.Nodup.append (side 4 (by norm_num)) (side 5 (by norm_num))
              (disj 4 5 (by norm_num) (by norm_num) (by norm_num))
          · intro p hp1 hp2
            simp only [List.mem_append] at hp2
            rcases hp2 with h2 | h2
            · exact disj 3 4 (by norm_num) (by norm_num) (by norm_num) hp1 h2
            · exact disj 3 5 (by norm_num) (by norm_num) (by norm_num) hp1 h2
        · intro p hp1 hp2
          simp only [List.mem_append] at hp2
          rcases hp2 with h2 | h2 | h2
          · exact disj 2 3 (by norm_num) (by norm_num) (by norm_num) hp1 h2
          · exact disj 2 4 (by norm_num) (by norm_num) (by norm_num) hp1 h2
          · exact disj 2 5 (by norm_num) (by norm_num) (by norm_num) hp1 h2
      · intro p hp1 hp2
        simp only [List.mem_append] at hp2
        rcases hp2 with h2 | h2 | h2 | h2
        · exact disj 1 2 (by norm_num) (by norm_num) (by norm_num) hp1 h2
        · exact disj 1 3 (by norm_num) (by norm_num) (by norm_num) hp1 h2
        · exact disj 1 4 (by norm_num) (by norm_num) (by norm_num) hp1 h2
        · exact disj 1 5 (by norm_num) (by norm_num) (by norm_num) hp1 h2
    · intro p hp1 hp2
      simp only [List.mem_append] at hp2
      rcases hp2 with h2 | h2 | h2 | h2 | h2
      · exact disj 0 1 (by norm_num) (by norm_num) (by norm_num) hp1 h2
      · exact disj 0 2 (by norm_num) (by norm_num) (by norm_num) hp1 h2
      · exact disj 0 3 (by norm_num) (by norm_num) (by norm_num) hp1 h2
      · exact disj 0 4 (by norm_num) (by norm_num) (by norm_num) hp1 h2
      · exact disj 0 5 (by norm_num) (by norm_num) (by norm_num) hp1 h2

theorem cubeRing_length (c : CubeCoord) (k : Nat) :
    (cubeRing c k).length = if k = 0 then 1 else 6 * k := by
  rcases Nat.eq_zero_or_pos k with hk | hk
  · subst hk
    simp [cubeRing_zero]
  · have hk2 : k ≠ 0 := Nat.pos_iff_ne_zero.mp hk
    rw [cubeRing_eq_explicit c k hk2, if_neg hk2]
    simp only [List.length_append, List.length_map, List.length_range]
    omega

theorem sum_of_mem_cubeRing (c : CubeCoord) (k : Nat) (p : CubeCoord)
    (hp : p ∈ cubeRing c k) : p.q + p.r + p.s = c.q + c.r + c.s := by
  rcases Nat.eq_zero_or_pos k with hk | hk
  · subst hk
    rw [cubeRing_zero] at hp
    simp only [List.mem_singleton] at hp
    subst hp
    rfl
  · rw [mem_cubeRing_iff c k (Nat.pos_iff_ne_zero.mp hk) p] at hp
    obtain ⟨i, hi, j, hj, rfl⟩ := hp
    interval_cases i <;> (simp only [ringPoint] ; ring)

theorem collectedRings_succ (cc : CubeCoord) (n : Nat) :
    collectedRings cc (n + 1) = collectedRings cc n ++ cubeRing cc (n + 1) := by
  unfold collectedRings
  rw [List.range_succ, List.foldl_append]
  rfl

theorem mem_collectedRings (cc : CubeCoord) (n : Nat) (p : CubeCoord) :
    p ∈ collectedRings cc n ↔ ∃ k ≤ n, p ∈ cubeRing cc k := by
  induction n with
  | zero =>
    constructor
    · intro hp
      exact ⟨0, le_refl 0, hp⟩
    · rintro ⟨k, hk, hp⟩
      rw [Nat.le_zero.mp hk] at hp
      exact hp
  | succ m ih =>
    rw [collectedRings_succ, List.mem_append, ih]
    constructor
    · rintro (⟨k, hk, hp⟩ | hp)
      · exact ⟨k, Nat.le_succ_of_le hk, hp⟩
      · exact ⟨m + 1, le_refl _, hp⟩
    · rintro ⟨k, hk, hp⟩
      rcases Nat.lt_or_ge k (m + 1) with h | h
      · exact Or.inl ⟨k, Nat.lt_succ_iff.mp h, hp⟩
      · rw [Nat.le_antisymm hk h] at hp
        exact Or.inr hp

theorem collectedRings_zero (cc : CubeCoord) : collectedRings cc 0 = [cc] := by
  show List.foldl (fun acc layer => acc ++ cubeRing cc layer) [] [0] = [cc]
  simp [cubeRing_zero]

theorem collectedRings_nodup (cc : CubeCoord) (n : Nat) :
    (collectedRings cc n).Nodup := by
  induction n with
  | zero => simp [collectedRings_zero]
  | succ m ih =>
    rw [collectedRings_succ]
    refine List.Nodup.append ih (cubeRing_nodup cc (m + 1)) ?_
    intro p hp1 hp2
    rw [mem_collectedRings] at hp1
    obtain ⟨k, hk, hp1⟩ := hp1
    have d1 := dist_of_mem_cubeRing cc k p hp1
    have d2 := dist_of_mem_cubeRing cc (m + 1) p hp2
    rw [d1] at d2
    have : k = m + 1 := by exact_mod_cast d2
    omega

theorem collectedRings_length (cc : CubeCoord) (n : Nat) :
    (collectedRings cc n).length = 3 * n * (n + 1) + 1 := by
  induction n with
  | zero => simp [collectedRings_zero]
  | succ m ih =>
    rw [collectedRings_succ, List.length_append, ih, cubeRing_length]
    rw [if_neg (Nat.succ_ne_zero m)]
    ring

theorem insertionDedup_eq_self_aux (l : List CubeCoord) :
    ∀ acc : List CubeCoord, (acc ++ l).Nodup →
      l.foldl (fun acc2 x => if x ∈ acc2 then acc2 else acc2 ++ [x]) acc = acc ++ l := by
  induction l with
  | nil =>
    intro acc _
    simp
  | cons a as ih =>
    intro acc hnd
    have ha : a ∉ acc := by
      intro hmem
      have : ¬(acc ++ a :: as).Nodup := by
        intro hn
        have := List.disjoint_of_nodup_append hn
        exact this hmem (List.mem_cons_self a as)
      exact this hnd
    simp only [List.foldl_cons, if_neg ha]
    have : (acc ++ [a]) ++ as = acc ++ a :: as := by simp
    rw [ih (acc ++ [a]) (by rw [this]; exact hnd)]
    simp

theorem insertionDedup_eq_self (l : List CubeCoord) (h : l.Nodup) :
    insertionDedup l = l := by
  have := insertionDedup_eq_self_aux l [] (by simpa using h)
  simpa [insertionDedup] using this

theorem generateHexGrid_eq (maxLayer : Nat) (centerQ centerR : Int) :
    generateHexGrid maxLayer centerQ centerR =
      (collectedRings (axialToCube centerQ centerR) maxLayer).map cubeToAxial := by
  have h1 : generateHexGrid maxLayer centerQ centerR =
      ((insertionDedup (collectedRings (axialToCube centerQ centerR) maxLayer)).filter
        (fun c => c.q + c.r + c.s = 0)).map cubeToAxial := rfl
  rw [h1, insertionDedup_eq_self _ (collectedRings_nodup _ _)]
  congr 1
  apply List.filter_eq_self.mpr
  intro p hp
  rw [mem_collectedRings] at hp
  obtain ⟨k, _, hp⟩ := hp
  have := sum_of_mem_cubeRing _ _ _ hp
  simp only [axialToCube] at this
  simp only [decide_eq_true_eq]
  omega

theorem generateHexGrid_length (maxLayer : Nat) (centerQ centerR : Int) :
    (generateHexGrid maxLayer centerQ centerR).length = 3 * maxLayer * (maxLayer + 1) + 1 := by
  rw [generateHexGrid_eq, List.length_map, collectedRings_length]

/-- Axial `distance` agrees with `cubeDistance` on the corresponding cubes. -/
theorem distance_eq_cubeDistance (q1 r1 q2 r2 : Int) :
    distance q1 r1 q2 r2 = cubeDistance (axialToCube q1 r1) (axialToCube q2 r2) := by
  simp only [distance, cubeDistance, axialToCube, Int.abs_eq_natAbs, max_def]
  split_ifs <;> omega

/-- Axial `distance` from a center to the axial projection of a zero-sum cube. -/
theorem distance_cubeToAxial (ccQ ccR : Int) (p : CubeCoord) (hps : p.s = -p.q - p.r) :
    distance ccQ ccR p.q p.r = cubeDistance p (axialToCube ccQ ccR) := by
  simp only [distance, cubeDistance, axialToCube, hps, Int.abs_eq_natAbs, max_def]
  split_ifs <;> omega

theorem mem_generateHexGrid (maxLayer : Nat) (centerQ centerR : Int) (h : HexCoord)
    (hh : h ∈ generateHexGrid maxLayer centerQ centerR) :
    distance centerQ centerR h.q h.r ≤ (maxLayer : Int) := by
  rw [generateHexGrid_eq] at hh
  rw [List.mem_map] at hh
  obtain ⟨p, hp, rfl⟩ := hh
  rw [mem_collectedRings] at hp
  obtain ⟨k, hk, hp⟩ := hp
  have hd := dist_of_mem_cubeRing _ _ _ hp
  have hsum := sum_of_mem_cubeRing _ _ _ hp
  simp only [axialToCube] at hsum
  have hps : p.s = -p.q - p.r := by omega
  have hax : (cubeToAxial p).q = p.q ∧ (cubeToAxial p).r = p.r := ⟨rfl, rfl⟩
  rw [hax.1, hax.2, distance_cubeToAxial centerQ centerR p hps, hd]
  exact_mod_cast Nat.cast_le.mpr hk

theorem distance_symm (q1 r1 q2 r2 : Int) :
    distance q1 r1 q2 r2 = distance q2 r2 q1 r1 := by
  simp only [distance, Int.abs_eq_natAbs]
  omega

/-- Helper: the grid-phase distance filter keeps every enumerated hex. -/
theorem stepGenerateGrid_filter_id (R : Nat) (centerQ centerR : Int) :
    (generateHexGrid R centerQ centerR).filter
        (fun hex => distance centerQ centerR hex.q hex.r ≤ (R : Int)) =
      generateHexGrid R centerQ centerR := by
  apply List.filter_eq_self.mpr
  intro h hh
  simpa using mem_generateHexGrid R centerQ centerR h hh

/-- C10: every hex produced by the ring enumeration is at distance ≤ R from the
center, so the `distance <= rings` validation in the chunk grid step never
rejects a hex and the validated grid is the full enumerated grid. -/
theorem grid_validation_never_rejects (R : Nat) (centerQ centerR : Int) :
    (∀ h ∈ generateHexGrid R centerQ centerR,
        distance centerQ centerR h.q h.r ≤ (R : Int)) ∧
      stepGenerateGridTiles R ⟨centerQ, centerR⟩ =
        (generateHexGrid R centerQ centerR).map (fun hex => ⟨hex, none, true⟩) := by
  constructor
  · exact mem_generateHexGrid R centerQ centerR
  · unfold stepGenerateGridTiles
    rw [stepGenerateGrid_filter_id R centerQ centerR]

/-- C3: a chunk that has completed its grid phase holds exactly `3R(R+1)+1`
tiles, each at axial distance at most `R` from the chunk center. -/
theorem chunk_grid_size_and_radius (R : Nat) (center : HexCoord) :
    (stepGenerateGridTiles R center).length = 3 * R * (R + 1) + 1 ∧
      ∀ t ∈ stepGenerateGridTiles R center,
        distance t.hex.q t.hex.r center.q center.r ≤ (R : Int) := by
  constructor
  · unfold stepGenerateGridTiles
    rw [stepGenerateGrid_filter_id R center.q center.r, List.length_map,
      generateHexGrid_length]
  · intro t ht
    unfold stepGenerateGridTiles at ht
    rw [stepGenerateGrid_filter_id R center.q center.r, List.mem_map] at ht
    obtain ⟨hex, hh, rfl⟩ := ht
    rw [distance_symm]
    exact mem_generateHexGrid R center.q center.r hex hh

theorem neighborBase_zero : neighborBase 0 = ⟨1, 0⟩ := rfl

theorem neighborBase_pos (rings : Nat) (h : rings ≠ 0) :
    neighborBase rings = ⟨(rings : Int), (rings : Int) + 1⟩ := by
  simp [neighborBase, h]

/-- C4: `calculateChunkNeighbors` returns exactly six neighbor centers, each at
axial distance `2R+1` from the chunk center (`1` when `R = 0`). -/
theorem chunk_neighbor_count_and_spacing (R : Nat) (center : HexCoord) :
    (calculateChunkNeighbors center R).length = 6 ∧
      ∀ nb ∈ calculateChunkNeighbors center R,
        distance nb.q nb.r center.q center.r =
          if R = 0 then 1 else 2 * (R : Int) + 1 := by
  have hrange : List.range 6 = [0, 1, 2, 3, 4, 5] := rfl
  rcases Nat.eq_zero_or_pos R with hR | hR
  · subst hR
    refine ⟨rfl, ?_⟩
    intro nb hnb
    rw [if_pos rfl]
    simp only [calculateChunkNeighbors, neighborBase_zero, hrange, List.foldl_cons,
      List.foldl_nil, rotateCW, List.nil_append, List.append_assoc, List.cons_append,
      List.mem_cons, List.mem_singleton, List.not_mem_nil, or_false] at hnb
    rcases hnb with rfl | rfl | rfl | rfl | rfl | rfl <;>
      (simp only [distance, Int.abs_eq_natAbs] ; omega)
  · have hR2 : R ≠ 0 := Nat.pos_iff_ne_zero.mp hR
    refine ⟨rfl, ?_⟩
    intro nb hnb
    rw [if_neg hR2]
    simp only [calculateChunkNeighbors, neighborBase_pos R hR2, hrange, List.foldl_cons,
      List.foldl_nil, rotateCW, List.nil_append, List.append_assoc, List.cons_append,
      List.mem_cons, List.mem_singleton, List.not_mem_nil, or_false] at hnb
    rcases hnb with rfl | rfl | rfl | rfl | rfl | rfl <;>
      (simp only [distance, Int.abs_eq_natAbs] ; omega)

/-- C1 amended: publishing a chunk's tiles overwrites the spatial index
unconditionally (last-writer wins); hexes outside the grid keep their entry. -/
theorem spatial_index_publish_overwrites (wm : WorldMapModel) (grid : List ChunkTile)
    (chunkHex : HexCoord) (h : HexCoord) :
    (h ∈ grid.map (fun t => t.hex) →
      (stepUpdateSpatialIndexAll wm grid chunkHex).spatialIndex h = some chunkHex) ∧
    (h ∉ grid.map (fun t => t.hex) →
      (stepUpdateSpatialIndexAll wm grid chunkHex).spatialIndex h = wm.spatialIndex h) := by
  induction grid generalizing wm with
  | nil =>
    refine ⟨?_, ?_⟩
    · intro hmem
      simp at hmem
    · intro _
      rfl
  | cons t ts ih =>
    have hstep : stepUpdateSpatialIndexAll wm (t :: ts) chunkHex =
        stepUpdateSpatialIndexAll (addSpatialIndexEntry wm t.hex chunkHex) ts chunkHex := rfl
    refine ⟨?_, ?_⟩
    · intro hmem
      rw [hstep]
      simp only [List.map_cons, List.mem_cons] at hmem
      by_cases hts : h ∈ ts.map (fun t2 => t2.hex)
      · exact (ih (addSpatialIndexEntry wm t.hex chunkHex)).1 hts
      · rcases hmem with heq | hts2
        · rw [(ih (addSpatialIndexEntry wm t.hex chunkHex)).2 hts]
          simp [addSpatialIndexEntry, heq]
        · exact absurd hts2 hts
    · intro hmem
      rw [hstep]
      simp only [List.map_cons, List.mem_cons, not_or] at hmem
      rw [(ih (addSpatialIndexEntry wm t.hex chunkHex)).2 hmem.2]
      simp [addSpatialIndexEntry, hmem.1]

/-- Witness for `spatial_index_publish_overwrites` at a concrete state. -/
theorem spatial_index_publish_overwrites_witness :
    (stepUpdateSpatialIndexAll ⟨fun _ => none, fun _ => none⟩
        [⟨⟨2, 3⟩, none, true⟩] ⟨2, 2⟩).spatialIndex ⟨2, 3⟩ = some ⟨2, 2⟩ :=
  (spatial_index_publish_overwrites ⟨fun _ => none, fun _ => none⟩
    [⟨⟨2, 3⟩, none, true⟩] ⟨2, 2⟩ ⟨2, 3⟩).1 (by decide)

/-- C1 counterexample: the origin chunk (radius 1) publishes hex `(0,0)`; the
overlapping chunk centered at `(1,0)` (radius 1) then runs its index phase and
the entry for `(0,0)` changes from `(0,0)` to `(1,0)` — the claimed
first-writer-wins behaviour does not hold. -/
theorem spatial_index_first_writer_counterexample :
    (stepUpdateSpatialIndexAll ⟨fun _ => none, fun _ => none⟩
        (stepGenerateGridTiles 1 ⟨0, 0⟩) ⟨0, 0⟩).spatialIndex ⟨0, 0⟩ = some ⟨0, 0⟩ ∧
    (stepUpdateSpatialIndexAll
        (stepUpdateSpatialIndexAll ⟨fun _ => none, fun _ => none⟩
          (stepGenerateGridTiles 1 ⟨0, 0⟩) ⟨0, 0⟩)
        (stepGenerateGridTiles 1 ⟨1, 0⟩) ⟨1, 0⟩).spatialIndex ⟨0, 0⟩ = some ⟨1, 0⟩ ∧
    (⟨1, 0⟩ : HexCoord) ≠ ⟨0, 0⟩ := by
  decide

/-- C5 amended: the fast lookup deletes the index entry and returns `null` when
the indexed chunk is missing from the map; when the chunk exists but the
distance verification fails, it returns `null` while the stale entry is
retained (not deleted); when verification succeeds it returns the center. -/
theorem getChunkForTileFast_cases (wm : WorldMapModel) (tileHex c : HexCoord)
    (rings : Nat) (hidx : wm.spatialIndex tileHex = some c) :
    (wm.chunks c = none →
      getChunkForTileFast wm tileHex rings =
        (none,
         { wm with
            spatialIndex := fun k => if k = tileHex then none else wm.spatialIndex k })) ∧
    (∀ ch, wm.chunks c = some ch →
      distance tileHex.q tileHex.r c.q c.r ≤ (rings : Int) →
      getChunkForTileFast wm tileHex rings = (some c, wm)) ∧
    (∀ ch, wm.chunks c = some ch →
      ¬ distance tileHex.q tileHex.r c.q c.r ≤ (rings : Int) →
      getChunkForTileFast wm tileHex rings = (none, wm)) := by
  refine ⟨?_, ?_, ?_⟩
  · intro hc
    simp only [getChunkForTileFast, hidx, hc]
  · intro ch hc hdist
    simp only [getChunkForTileFast, hidx, hc, if_pos hdist]
  · intro ch hc hdist
    simp only [getChunkForTileFast, hidx, hc, if_neg hdist]

/-- Witness for `getChunkForTileFast_cases`. -/
theorem getChunkForTileFast_cases_witness :
    getChunkForTileFast staleWorldMap ⟨5, 0⟩ 1 = (none, staleWorldMap) :=
  (getChunkForTileFast_cases staleWorldMap ⟨5, 0⟩ ⟨0, 0⟩ 1 (by decide)).2.2
    (chunkNew ⟨0, 0⟩) (by decide) (by decide)

/-- C5 counterexample: on a stale entry whose chunk still exists, the failed
distance verification returns `null` but the stale entry is NOT deleted. -/
theorem stale_entry_not_deleted_counterexample :
    (getChunkForTileFast staleWorldMap ⟨5, 0⟩ 1).1 = none ∧
    (getChunkForTileFast staleWorldMap ⟨5, 0⟩ 1).2.spatialIndex ⟨5, 0⟩ = some ⟨0, 0⟩ := by
  decide

/-- C6: the enqueue contract.  An existing task has its priority raised to the
maximum and its own completion promise returned; an initialized existing chunk
yields a resolved promise with that chunk and no task; with neither task nor
chunk, an uninitialized empty placeholder is inserted into the world map and a
fresh pending task is registered. -/
theorem enqueue_contract (q : QueueModel) (wm : WorldMapModel) (chunkHex : HexCoord)
    (rings : Nat) (priority : Int) :
    (∀ t, q.tasks chunkHex = some t →
      enqueue q wm chunkHex rings priority =
        (.existingTaskPromise t.promiseId,
         { q with
            tasks := fun k =>
              if k = chunkHex then some { t with priority := max t.priority priority }
              else q.tasks k },
         wm)) ∧
    (q.tasks chunkHex = none → ∀ c, wm.chunks chunkHex = some c →
      c.initialized = true →
      enqueue q wm chunkHex rings priority = (.resolvedChunk c, q, wm)) ∧
    (q.tasks chunkHex = none → wm.chunks chunkHex = none →
      (enqueue q wm chunkHex rings priority).2.2.chunks chunkHex =
          some (chunkNew chunkHex) ∧
      (chunkNew chunkHex).initialized = false ∧
      (chunkNew chunkHex).grid = [] ∧
      (enqueue q wm chunkHex rings priority).2.1.tasks chunkHex =
          some ⟨chunkHex, rings, priority, .pending, q.nextPromiseId⟩ ∧
      (enqueue q wm chunkHex rings priority).1 = .newTaskPromise q.nextPromiseId) := by
  refine ⟨?_, ?_, ?_⟩
  · intro t ht
    simp only [enqueue, ht]
    have hmax : (if priority > t.priority then priority else t.priority) =
        max t.priority priority := by
      rcases le_or_lt priority t.priority with h | h
      · rw [if_neg (not_lt.mpr h), max_eq_left h]
      · rw [if_pos h, max_eq_right (le_of_lt h)]
    rw [hmax]
  · intro ht c hc hcinit
    simp only [enqueue, ht, hc, hcinit, if_pos]
  · intro ht hc
    simp only [enqueue, ht, hc, enqueueNewTask, addChunkPlaceholder]
    refine ⟨?_, ?_, ?_, ?_, ?_⟩ <;> first
      | rfl
      | simp [hc]

/-- Witness for `enqueue_contract`: all three branches discharged at concrete
queue and world-map states. -/
theorem enqueue_contract_witness :
    (enqueue ⟨fun k => if k = ⟨0, 0⟩ then some ⟨⟨0, 0⟩, 1, 5, .pending, 0⟩ else none, 1⟩
        ⟨fun _ => none, fun _ => none⟩ ⟨0, 0⟩ 1 100).1 = .existingTaskPromise 0 ∧
    enqueue ⟨fun _ => none, 0⟩
        ⟨fun k => if k = ⟨2, 0⟩ then some { chunkNew ⟨2, 0⟩ with initialized := true }
          else none, fun _ => none⟩ ⟨2, 0⟩ 1 7 =
      (.resolvedChunk { chunkNew ⟨2, 0⟩ with initialized := true },
       ⟨fun _ => none, 0⟩,
       ⟨fun k => if k = ⟨2, 0⟩ then some { chunkNew ⟨2, 0⟩ with initialized := true }
          else none, fun _ => none⟩) ∧
    (enqueue ⟨fun _ => none, 0⟩ ⟨fun _ => none, fun _ => none⟩ ⟨3, 1⟩ 2 9).2.2.chunks ⟨3, 1⟩ =
      some (chunkNew ⟨3, 1⟩) := by
  refine ⟨?_, ?_, ?_⟩
  · rw [(enqueue_contract _ _ _ _ _).1 ⟨⟨0, 0⟩, 1, 5, .pending, 0⟩ (by decide)]
  · exact (enqueue_contract _ _ _ _ _).2.1 (by decide) _ (by decide) (by decide)
  · exact ((enqueue_contract _ _ _ _ _).2.2 (by decide) (by decide)).1

theorem setTileTypeGrid_hexes (grid : List ChunkTile) (hex : HexCoord)
    (ty : Option TileType) :
    (setTileTypeGrid grid hex ty).map (fun t => t.hex) = grid.map (fun t => t.hex) := by
  induction grid with
  | nil => rfl
  | cons t ts ih =>
    by_cases h : t.hex = hex
    · simp [setTileTypeGrid, h]
    · simp [setTileTypeGrid, h, ih]

theorem mem_setTileTypeGrid (grid : List ChunkTile) (hex : HexCoord)
    (ty : Option TileType) (hnd : (grid.map (fun t => t.hex)).Nodup) (t : ChunkTile)
    (ht : t ∈ setTileTypeGrid grid hex ty) :
    (t.tileType = ty ∧ t.hex = hex) ∨ (t ∈ grid ∧ t.hex ≠ hex) := by
  induction grid with
  | nil => simp [setTileTypeGrid] at ht
  | cons t0 ts ih =>
    simp only [List.map_cons, List.nodup_cons] at hnd
    by_cases h0 : t0.hex = hex
    · simp only [setTileTypeGrid, if_pos h0, List.mem_cons] at ht
      rcases ht with rfl | ht
      · exact Or.inl ⟨rfl, h0⟩
      · refine Or.inr ⟨List.mem_cons_of_mem t0 ht, ?_⟩
        intro hth
        exact hnd.1 (h0 ▸ hth ▸ List.mem_map_of_mem (fun t2 => t2.hex) ht)
    · simp only [setTileTypeGrid, if_neg h0, List.mem_cons] at ht
      rcases ht with rfl | ht
      · exact Or.inr ⟨List.mem_cons_self _ ts, h0⟩
      · rcases ih hnd.2 ht with h | h
        · exact Or.inl h
        · exact Or.inr ⟨List.mem_cons_of_mem t0 h.1, h.2⟩

theorem commitStep_hexes (getTileAt : HexCoord → Int) (acc : ChunkModel)
    (hex : HexCoord) :
    (commitStep getTileAt acc hex).grid.map (fun t => t.hex) =
      acc.grid.map (fun t => t.hex) := by
  unfold commitStep
  cases tileTypeFromNumber (getTileAt hex) with
  | none => rfl
  | some ty => exact setTileTypeGrid_hexes acc.grid hex (some ty)

theorem commit_fold_assigns (getTileAt : HexCoord → Int) :
    ∀ (hexes : List HexCoord) (c : ChunkModel),
      (c.grid.map (fun t => t.hex)).Nodup →
      (∀ h ∈ hexes, (tileTypeFromNumber (getTileAt h)).isSome) →
      (∀ t ∈ c.grid, t.tileType.isSome ∨ t.hex ∈ hexes) →
      ∀ t ∈ (hexes.foldl (commitStep getTileAt) c).grid, t.tileType.isSome := by
  intro hexes
  induction hexes with
  | nil =>
    intro c _ _ hinv t ht
    rcases hinv t ht with h | h
    · exact h
    · simp at h
  | cons h0 hs ih =>
    intro c hnd hvalid hinv
    rw [List.foldl_cons]
    obtain ⟨ty, hty⟩ := Option.isSome_iff_exists.mp (hvalid h0 (List.mem_cons_self h0 hs))
    refine ih (commitStep getTileAt c h0) ?_ ?_ ?_
    · rw [commitStep_hexes]
      exact hnd
    · intro h hh
      exact hvalid h (List.mem_cons_of_mem h0 hh)
    · intro t ht
      unfold commitStep at ht
      rw [hty] at ht
      simp only [chunkSetTileType] at ht
      rcases mem_setTileTypeGrid c.grid h0 (some ty) hnd t ht with hcase | hcase
      · exact Or.inl (by rw [hcase.1]; rfl)
      · rcases hinv t hcase.1 with hsome | hmem
        · exact Or.inl hsome
        · rcases List.mem_cons.mp hmem with heq | hhs
          · exact absurd heq hcase.2
          · exact Or.inr hhs

/-- C7 amended: if the generator reports a valid tile number (0..4) for every
tile hex of a chunk whose grid hexes are distinct, the layout-commit pass
assigns a kind to every tile and marks the chunk `tilesGenerated`; when some
tile's number is invalid, the chunk is still marked `tilesGenerated` with that
tile's kind left `null` (see the counterexample). -/
theorem commit_marks_generated_with_all_kinds (getTileAt : HexCoord → Int)
    (c : ChunkModel) (hnd : (c.grid.map (fun t => t.hex)).Nodup)
    (hvalid : ∀ t ∈ c.grid, (tileTypeFromNumber (getTileAt t.hex)).isSome) :
    (commitChunkTiles getTileAt c).tilesGenerated = true ∧
      ∀ t ∈ (commitChunkTiles getTileAt c).grid, t.tileType.isSome := by
  constructor
  · rfl
  · intro t ht
    have hgrid : (commitChunkTiles getTileAt c).grid =
        ((c.grid.map (fun t2 => t2.hex)).foldl (commitStep getTileAt) c).grid := rfl
    rw [hgrid] at ht
    refine commit_fold_assigns getTileAt (c.grid.map (fun t2 => t2.hex)) c hnd ?_ ?_ t ht
    · intro h hh
      rw [List.mem_map] at hh
      obtain ⟨t2, ht2, rfl⟩ := hh
      exact hvalid t2 ht2
    · intro t2 ht2
      exact Or.inr (List.mem_map_of_mem (fun t3 => t3.hex) ht2)

/-- Witness for `commit_marks_generated_with_all_kinds` with a generator that
always reports grass (0). -/
theorem commit_marks_generated_witness :
    (commitChunkTiles (fun _ => 0) oneTileChunk).tilesGenerated = true :=
  (commit_marks_generated_with_all_kinds (fun _ => 0) oneTileChunk
    (by decide) (by decide)).1

/-- C7 counterexample: a generator value outside 0..4 leaves the tile's kind
`null`, yet the chunk is marked `tilesGenerated` — so `tiles_generated` does
not imply every kind is assigned. -/
theorem commit_invalid_kind_counterexample :
    (commitChunkTiles (fun _ => 7) oneTileChunk).tilesGenerated = true ∧
    (commitChunkTiles (fun _ => 7) oneTileChunk).grid = [⟨⟨0, 0⟩, none, true⟩] := by
  decide

/-- Evaluation of `worldToHex` when both fractional coordinates are exact
integers: all rounding errors vanish and the final else-branch returns them. -/
theorem worldToHex_of_int (x z hexSize : ℝ) (a b : ℤ)
    (hq : (Real.sqrt 3 / 3 * x - 1 / 3 * z) / hexSize = (a : ℝ))
    (hr : (2 / 3 * z) / hexSize = (b : ℝ)) :
    worldToHex x z hexSize = ⟨a, b⟩ := by
  simp only [worldToHex]
  rw [hq, hr]
  have hsum : -(a : ℝ) - (b : ℝ) = ((-a - b : ℤ) : ℝ) := by push_cast; ring
  rw [hsum]
  simp only [round_intCast, sub_self, abs_zero, gt_iff_lt, lt_self_iff_false,
    and_false, if_false, false_and, if_neg (lt_irrefl (0 : ℝ))]

/-- C8: `worldToHex` after `hexToWorld` is exactly the identity on hex centers
(the fractional coordinates cancel exactly over the reals). -/
theorem hex_world_roundtrip (q r : ℤ) (hexSize : ℝ) (hs : 0 < hexSize) :
    worldToHex (hexToWorld q r hexSize).1 (hexToWorld q r hexSize).2 hexSize =
      ⟨q, r⟩ := by
  have hne : hexSize ≠ 0 := ne_of_gt hs
  have h3 : Real.sqrt 3 * Real.sqrt 3 = 3 := Real.mul_self_sqrt (by norm_num)
  apply worldToHex_of_int
  · simp only [hexToWorld]
    rw [div_eq_iff hne]
    linear_combination (hexSize * (q : ℝ) / 3 + hexSize * (r : ℝ) / 6) * h3
  · simp only [hexToWorld]
    rw [div_eq_iff hne]
    ring

/-- Witness for `hex_world_roundtrip` at `(q, r) = (2, -1)`, `hexSize = 1`. -/
theorem hex_world_roundtrip_witness :
    (0 : ℝ) < 1 ∧
      worldToHex (hexToWorld ((2 : ℤ) : ℝ) ((-1 : ℤ) : ℝ) 1).1
          (hexToWorld ((2 : ℤ) : ℝ) ((-1 : ℤ) : ℝ) 1).2 1 = ⟨2, -1⟩ :=
  ⟨by norm_num, hex_world_roundtrip 2 (-1) 1 (by norm_num)⟩

theorem sqrt3_gt : (1.732 : ℝ) < Real.sqrt 3 := by
  rw [show (1.732 : ℝ) = Real.sqrt (1.732 ^ 2) by rw [Real.sqrt_sq] ; norm_num]
  apply Real.sqrt_lt_sqrt <;> norm_num

theorem sqrt3_lt : Real.sqrt 3 < 1.7321 := by
  rw [show (1.7321 : ℝ) = Real.sqrt (1.7321 ^ 2) by rw [Real.sqrt_sq] ; norm_num]
  apply Real.sqrt_lt_sqrt <;> norm_num

theorem round_75_sqrt3 : round (75 * Real.sqrt 3) = 130 := by
  have h1 := sqrt3_gt
  have h2 := sqrt3_lt
  rw [round_eq]
  apply Int.floor_eq_iff.mpr
  constructor
  · push_cast
    nlinarith
  · push_cast
    nlinarith

theorem round_neg_75_sqrt3 : round (-(75 * Real.sqrt 3)) = -130 := by
  have h1 := sqrt3_gt
  have h2 := sqrt3_lt
  rw [round_eq]
  apply Int.floor_eq_iff.mpr
  constructor
  · push_cast
    nlinarith
  · push_cast
    nlinarith

/-- Evaluation of `worldToHex` on the positive x-axis rebase offset. -/
theorem worldToHex_pos1500 : worldToHex 1500 0 TILE_CONFIG_hexSize = ⟨130, 0⟩ := by
  simp only [worldToHex, TILE_CONFIG_hexSize]
  have hfq : (Real.sqrt 3 / 3 * 1500 - 1 / 3 * 0) / (20 / 3) = 75 * Real.sqrt 3 := by
    field_simp
    ring
  have hfr : (2 / 3 * (0 : ℝ)) / (20 / 3) = 0 := by norm_num
  rw [hfq, hfr]
  rw [show -(75 * Real.sqrt 3) - 0 = -(75 * Real.sqrt 3) by ring]
  rw [round_75_sqrt3, round_neg_75_sqrt3, round_zero]
  have habs : |((-130 : ℤ) : ℝ) - -(75 * Real.sqrt 3)| = |((130 : ℤ) : ℝ) - 75 * Real.sqrt 3| := by
    rw [show ((-130 : ℤ) : ℝ) - -(75 * Real.sqrt 3) = -(((130 : ℤ) : ℝ) - 75 * Real.sqrt 3) by
      push_cast ; ring]
    exact abs_neg _
  rw [if_neg, if_neg]
  · intro hlt
    rw [habs] at hlt
    have : |((0 : ℤ) : ℝ) - 0| = 0 := by simp
    rw [this] at hlt
    exact absurd hlt (not_lt.mpr (abs_nonneg _))
  · rintro ⟨_, hlt⟩
    rw [habs] at hlt
    exact lt_irrefl _ hlt

/-- Evaluation of `worldToHex` on the negated avatar x-coordinate. -/
theorem worldToHex_neg1500 : worldToHex (-1500) 0 TILE_CONFIG_hexSize = ⟨-130, 0⟩ := by
  simp only [worldToHex, TILE_CONFIG_hexSize]
  have hfq : (Real.sqrt 3 / 3 * (-1500) - 1 / 3 * 0) / (20 / 3) = -(75 * Real.sqrt 3) := by
    field_simp
    ring
  have hfr : (2 / 3 * (0 : ℝ)) / (20 / 3) = 0 := by norm_num
  rw [hfq, hfr]
  rw [show -(-(75 * Real.sqrt 3)) - 0 = 75 * Real.sqrt 3 by ring]
  rw [round_75_sqrt3, round_neg_75_sqrt3, round_zero]
  have habs : |((130 : ℤ) : ℝ) - 75 * Real.sqrt 3| = |((-130 : ℤ) : ℝ) - -(75 * Real.sqrt 3)| := by
    rw [show ((-130 : ℤ) : ℝ) - -(75 * Real.sqrt 3) = -(((130 : ℤ) : ℝ) - 75 * Real.sqrt 3) by
      push_cast ; ring]
    rw [abs_neg]
  rw [if_neg, if_neg]
  · intro hlt
    have : |((0 : ℤ) : ℝ) - 0| = 0 := by simp
    rw [this] at hlt
    exact absurd hlt (not_lt.mpr (abs_nonneg _))
  · rintro ⟨_, hlt⟩
    rw [← habs] at hlt
    exact lt_irrefl _ hlt

/-- C2 evaluation: the floating-origin rebase changes the avatar's true world
hex from `(-130, 0)` to `(130, 0)` — the identity
`true_hex = world_to_hex(-local_x, local_z, s) + world_hex_offset` is NOT
preserved, because the accumulated delta is computed from `(+offset.x,
offset.z)` while the true-hex convention negates x. -/
theorem floating_origin_rebase_breaks_identity :
    getCurrentTileHex rebaseState = ⟨-130, 0⟩ ∧
      getCurrentTileHex (updateFloatingOrigin rebaseState) = ⟨130, 0⟩ ∧
      (⟨130, 0⟩ : HexCoord) ≠ ⟨-130, 0⟩ := by
  have hbefore : getCurrentTileHex rebaseState = ⟨-130, 0⟩ := by
    simp only [getCurrentTileHex, rebaseState]
    rw [show -(1500 : ℝ) = (-1500 : ℝ) by norm_num, worldToHex_neg1500]
    simp
  refine ⟨hbefore, ?_, by decide⟩
  have hdist : vec3Distance (⟨1500, 0, 0⟩ : Vec3) (⟨0, 0, 0⟩ : Vec3) >
      floatingOriginThreshold := by
    simp only [vec3Distance, floatingOriginThreshold]
    rw [show ((1500 : ℝ) - 0) ^ 2 + (0 - 0) ^ 2 + (0 - 0) ^ 2 = 1500 ^ 2 by norm_num]
    rw [Real.sqrt_sq (by norm_num : (0 : ℝ) ≤ 1500)]
    norm_num
  have hupd : updateFloatingOrigin rebaseState =
      ⟨⟨0, 0, 0⟩, ⟨1500, 0, 0⟩, ⟨130, 0⟩⟩ := by
    simp only [updateFloatingOrigin, rebaseState]
    rw [if_pos hdist]
    rw [show (1500 : ℝ) - 0 = 1500 by norm_num, show (0 : ℝ) - 0 = 0 by norm_num]
    rw [worldToHex_pos1500]
    norm_num
  rw [hupd]
  simp only [getCurrentTileHex]
  rw [show -(0 : ℝ) = (0 : ℝ) by norm_num]
  rw [worldToHex_of_int 0 0 TILE_CONFIG_hexSize 0 0 (by norm_num) (by norm_num)]
  simp

theorem validateFields_grassRatio (density clustering : Option (List Char))
    (grassRatio : Option ℚ) (size : Option (List Char)) (r : LayoutConstraintsModel)
    (h : validateFields density clustering grassRatio size = some r) :
    ∀ x : ℚ, r.grassRatio = some x → 0 ≤ x ∧ x ≤ 1 := by
  unfold validateFields at h
  split at h
  · rename_i d cl g sz
    split_ifs at h with hguard
    · injection h with h2
      intro x hx
      rw [← h2] at hx
      simp only at hx
      injection hx with hx2
      rw [← hx2]
      exact ⟨hguard.2.2.1, hguard.2.2.2.1⟩
  all_goals exact absurd h (by simp)

theorem jsonExtract_grassRatio (jsonParse : List Char → Option JsValue)
    (output : List Char) (r : LayoutConstraintsModel)
    (h : jsonExtract jsonParse output = some r) :
    ∀ x : ℚ, r.grassRatio = some x → 0 ≤ x ∧ x ≤ 1 := by
  unfold jsonExtract at h
  split at h
  · exact absurd h (by simp)
  · split at h
    · exact validateFields_grassRatio _ _ _ _ r h
    all_goals exact absurd h (by simp)

/-- C9 amended: the parser's grass ratio, whenever it is an actual number, lies
in `[0, 1]`; and whenever the structured extraction fails, every field whose
regex fails takes its default.  (When the regex captures a numeric token that
`parseFloat` cannot parse — e.g. `".."` — the clamp passes `NaN` through and
the grass ratio is `NaN`, not a number in `[0, 1]`: see the counterexample.) -/
theorem parse_constraints_defaults_and_range
    (jsonParse : List Char → Option JsValue) (output : List Char) :
    (∀ x : ℚ, (parseLayoutConstraints jsonParse output).grassRatio = some x →
      0 ≤ x ∧ x ≤ 1) ∧
    (jsonExtract jsonParse output = none →
      (densityScan output = none →
        (parseLayoutConstraints jsonParse output).buildingDensity = .medium) ∧
      (clusteringScan output = none →
        (parseLayoutConstraints jsonParse output).clustering = .random) ∧
      (grassRatioScan output = none →
        (parseLayoutConstraints jsonParse output).grassRatio = some (3 / 10)) ∧
      (sizeScan output = none →
        (parseLayoutConstraints jsonParse output).buildingSizeHint = .medium)) := by
  cases hje : jsonExtract jsonParse output with
  | some r =>
    refine ⟨?_, fun h => absurd h (by simp [hje])⟩
    intro x hx
    simp only [parseLayoutConstraints, hje] at hx
    exact jsonExtract_grassRatio jsonParse output r hje x hx
  | none =>
    constructor
    · intro x hx
      simp only [parseLayoutConstraints, hje] at hx
      cases hraw : (match grassRatioScan output with
          | some cap => parseFloatModel cap
          | none => some ((3 : ℚ) / 10)) with
      | none => rw [hraw] at hx ; simp [jsMin1, jsMax0] at hx
      | some v =>
        rw [hraw] at hx
        simp only [jsMin1, jsMax0] at hx
        injection hx with hx2
        rw [← hx2]
        constructor
        · exact le_max_left 0 _
        · exact max_le (by norm_num) (min_le_left 1 v)
    · intro _
      refine ⟨?_, ?_, ?_, ?_⟩
      · intro hd
        simp [parseLayoutConstraints, hje, hd]
      · intro hd
        simp [parseLayoutConstraints, hje, hd]
      · intro hd
        simp [parseLayoutConstraints, hje, hd, jsMin1, jsMax0]
        norm_num
      · intro hd
        simp [parseLayoutConstraints, hje, hd]

/-- Witness for `parse_constraints_defaults_and_range` on a matchless input. -/
theorem parse_constraints_defaults_witness :
    (parseLayoutConstraints (fun _ => none) "x".data).grassRatio = some (3 / 10) ∧
      (parseLayoutConstraints (fun _ => none) "x".data).buildingDensity = .medium :=
  ⟨((parse_constraints_defaults_and_range (fun _ => none) "x".data).2
      (by decide)).2.2.1 (by decide),
   ((parse_constraints_defaults_and_range (fun _ => none) "x".data).2
      (by decide)).1 (by decide)⟩

/-- C9 counterexample: on the input `"grassRatio: .."` the regex captures
`".."`, `parseFloat` yields `NaN`, and the clamp passes `NaN` through — the
returned grass ratio is `NaN` (modelled `none`), not a number in `[0, 1]`,
while all other fields take their defaults. -/
theorem parse_constraints_nan_counterexample :
    parseLayoutConstraints (fun _ => none) "grassRatio: ..".data =
      ⟨.medium, .random, none, .medium⟩ ∧
    (parseLayoutConstraints (fun _ => none) "grassRatio: ..".data).grassRatio = none := by
  constructor <;> decide


/-- Witness for `chunk_grid_size_and_radius` at `R = 1`, center `(0, 0)`,
checked on the center tile. -/
theorem chunk_grid_size_and_radius_witness :
    (stepGenerateGridTiles 1 ⟨0, 0⟩).length = 3 * 1 * (1 + 1) + 1 ∧
      distance (⟨⟨0, 0⟩, none, true⟩ : ChunkTile).hex.q
        (⟨⟨0, 0⟩, none, true⟩ : ChunkTile).hex.r 0 0 ≤ (1 : Int) :=
  ⟨(chunk_grid_size_and_radius 1 ⟨0, 0⟩).1,
   (chunk_grid_size_and_radius 1 ⟨0, 0⟩).2 ⟨⟨0, 0⟩, none, true⟩ (by decide)⟩

/-- Witness for `chunk_neighbor_count_and_spacing` at `R = 2`, center `(0, 0)`,
checked on the first emitted neighbor `(-5, 2)`. -/
theorem chunk_neighbor_count_and_spacing_witness :
    (calculateChunkNeighbors ⟨0, 0⟩ 2).length = 6 ∧
      distance (-5) 2 0 0 = if (2 : Nat) = 0 then 1 else 2 * ((2 : Nat) : Int) + 1 :=
  ⟨(chunk_neighbor_count_and_spacing 2 ⟨0, 0⟩).1,
   (chunk_neighbor_count_and_spacing 2 ⟨0, 0⟩).2 ⟨-5, 2⟩ (by decide)⟩

/-- Witness for `grid_validation_never_rejects` at `R = 1`, center `(0, 0)`,
checked on the enumerated hex `(1, 0)`. -/
theorem grid_validation_never_rejects_witness :
    distance 0 0 (⟨1, 0⟩ : HexCoord).q (⟨1, 0⟩ : HexCoord).r ≤ ((1 : Nat) : Int) :=
  (grid_validation_never_rejects 1 0 0).1 ⟨1, 0⟩ (by decide)

end NasWasm


